import Mathlib

/-!
Shallow embedding of `src/live_trade_executor.py` (signal-trader-bot).

Python floats are modelled as exact rationals: `math.floor` is `Int.floor`
and Python `round(x, 12)` (decimal rounding, half to even) is modelled
exactly.  Exchange interactions (ticker, balances, order submission) are
modelled by an environment of responses; the functions under test are
deterministic in that environment.  `_fmt`/`str` round-trips are value
preserving in this idealised arithmetic and are elided.
-/

set_option maxRecDepth 4000

namespace LiveTradeExecutor

/-- Banker's rounding (round half to even) of a rational to an integer:
the rounding mode of Python `round`. -/
def roundHalfEven (x : ℚ) : ℤ :=
  if x - ⌊x⌋ < 1/2 then ⌊x⌋
  else if x - ⌊x⌋ > 1/2 then ⌊x⌋ + 1
  else if ⌊x⌋ % 2 = 0 then ⌊x⌋ else ⌊x⌋ + 1

/-- Python `round(x, 12)`: round to 12 decimal places, half to even. -/
def pyRound12 (x : ℚ) : ℚ := (roundHalfEven (x * 10^12) : ℚ) / 10^12

/-- Line 36: `_round_tick(px, tick) = round(math.floor(px / tick) * tick, 12)`. -/
def round_tick (px tick : ℚ) : ℚ := pyRound12 ((⌊px / tick⌋ : ℚ) * tick)

/-- Line 39: `_round_step(qty, step) = math.floor(qty / step) * step`. -/
def round_step (qty step : ℚ) : ℚ := (⌊qty / step⌋ : ℚ) * step

/-- Line 62, local to `place_oco`: `p_dec(v, tick) = math.floor(v / tick) * tick`. -/
def p_dec (v tick : ℚ) : ℚ := (⌊v / tick⌋ : ℚ) * tick

/-- Line 61, local to `place_oco`: `q_dec(v, step) = math.floor(v / step) * step`. -/
def q_dec (v step : ℚ) : ℚ := (⌊v / step⌋ : ℚ) * step

/-- ASCII lower-casing of one character (the error messages matched by the
code are ASCII, so Python `str.lower` restricted to ASCII is faithful). -/
def lowerChar (c : Char) : Char :=
  if 65 ≤ c.toNat ∧ c.toNat ≤ 90 then Char.ofNat (c.toNat + 32) else c

/-- Python `msg.lower()` on an ASCII message, as a character list. -/
def strLower (s : String) : List Char := s.toList.map lowerChar

/-- Line 512: the soft-error token list
`["insufficient balance", "Filter failure", "NOTIONAL", "oco", "orderListId"]`. -/
def softTokens : List String :=
  ["insufficient balance", "Filter failure", "NOTIONAL", "oco", "orderListId"]

/-- Line 512: `any(x in error_msg for x in softTokens)` (case sensitive). -/
def isSoft (msg : String) : Bool :=
  softTokens.any (fun t => decide (t.toList <:+: msg.toList))

/-- Line 471/473: `msg = str(e).lower()` then `"insufficient balance" in msg`. -/
def isInsuffBal (msg : String) : Bool :=
  decide ("insufficient balance".toList <:+: strLower msg)

/-! ### Basic lemmas about the quantizers -/

lemma roundHalfEven_intCast (m : ℤ) : roundHalfEven (m : ℚ) = m := by
  simp [roundHalfEven, Int.floor_intCast]

lemma pyRound12_fixed {x : ℚ} (m : ℤ) (h : x * 10^12 = (m : ℚ)) :
    pyRound12 x = x := by
  unfold pyRound12
  rw [h, roundHalfEven_intCast, ← h,
    mul_div_cancel_right₀ x (by norm_num : (10:ℚ)^12 ≠ 0)]

/-- When the tick is an integer multiple of `10 ^ (-12)` (all exchange tick
sizes are), the trailing `round(., 12)` in `_round_tick` is the identity. -/
lemma round_tick_of_tickmul (px tick : ℚ) (k : ℤ) (hk : tick * 10^12 = (k : ℚ)) :
    round_tick px tick = (⌊px / tick⌋ : ℚ) * tick := by
  unfold round_tick
  refine pyRound12_fixed (⌊px / tick⌋ * k) ?_
  rw [mul_assoc, hk]
  push_cast
  ring

/-- Evaluation helper: compute `_round_tick` from the floor value and the
fact that the result is an exact multiple of `10 ^ (-12)`. -/
lemma round_tick_eval (px tick : ℚ) (n m : ℤ)
    (h1 : ⌊px / tick⌋ = n) (h2 : (n : ℚ) * tick * 10^12 = (m : ℚ)) :
    round_tick px tick = (n : ℚ) * tick := by
  unfold round_tick
  rw [h1]
  exact pyRound12_fixed m h2

/-- Evaluation helper for `_round_step` and the `p_dec`/`q_dec` body. -/
lemma round_step_eval (qty step : ℚ) (n : ℤ) (h1 : ⌊qty / step⌋ = n) :
    round_step qty step = (n : ℚ) * step := by
  unfold round_step
  rw [h1]

lemma gridFloor_le (x g : ℚ) (hg : 0 < g) : (⌊x / g⌋ : ℚ) * g ≤ x :=
  (mul_le_mul_of_nonneg_right (Int.floor_le (x / g)) hg.le).trans_eq
    (div_mul_cancel₀ x hg.ne')

lemma p_dec_int_mul (n : ℤ) (g : ℚ) (hg : g ≠ 0) :
    p_dec ((n : ℚ) * g) g = (n : ℚ) * g := by
  unfold p_dec
  rw [mul_div_cancel_right₀ _ hg, Int.floor_intCast]

lemma round_step_int_mul (n : ℤ) (g : ℚ) (hg : g ≠ 0) :
    round_step ((n : ℚ) * g) g = (n : ℚ) * g := by
  unfold round_step
  rw [mul_div_cancel_right₀ _ hg, Int.floor_intCast]

/-- The value `_round_tick(x, 2/3)` for any `x` with `⌊x / (2/3)⌋ = 1`:
the `round(., 12)` step lands strictly above `2/3`, off the grid. -/
lemma round_tick_two_thirds (x : ℚ) (h : ⌊x / (2/3)⌋ = 1) :
    round_tick x (2/3) = 666666666667 / 10^12 := by
  unfold round_tick
  rw [h]
  unfold pyRound12
  have e2 : ((1 : ℤ) : ℚ) * (2/3) * 10^12 = 2000000000000/3 := by norm_num
  rw [e2]
  have f1 : ⌊(2000000000000/3 : ℚ)⌋ = 666666666666 := by
    rw [Int.floor_eq_iff]
    constructor
    · norm_num
    · norm_num
  simp only [roundHalfEven, f1]
  norm_num

/-! ### Claims C5 and C9: the grid quantizers -/

/-- Claim C5 (amended): for nonnegative inputs, positive grid units, and a
tick that is an integer multiple of `10 ^ (-12)`, `_round_tick` and
`_round_step` floor onto the grid: the result is at most the input and is
an exact integer multiple of the grid unit.  (For `_round_step` the
multiple-of-`10 ^ (-12)` restriction is not needed at all.) -/
theorem C5_grid_floor (px tick qty step : ℚ) (hpx : 0 ≤ px) (htick : 0 < tick)
    (hk : ∃ k : ℤ, tick * 10^12 = (k : ℚ)) (hqty : 0 ≤ qty) (hstep : 0 < step) :
    (round_tick px tick ≤ px ∧ ∃ n : ℤ, round_tick px tick = (n : ℚ) * tick) ∧
    (round_step qty step ≤ qty ∧ ∃ n : ℤ, round_step qty step = (n : ℚ) * step) := by
  obtain ⟨k, hk⟩ := hk
  rw [round_tick_of_tickmul px tick k hk]
  exact ⟨⟨gridFloor_le px tick htick, ⟨⌊px / tick⌋, rfl⟩⟩,
    ⟨gridFloor_le qty step hstep, ⟨⌊qty / step⌋, rfl⟩⟩⟩

theorem C5_grid_floor_witness :
    (round_tick 1 (1/10) ≤ 1 ∧ ∃ n : ℤ, round_tick 1 (1/10) = (n : ℚ) * (1/10)) ∧
    (round_step 5 (1/2) ≤ 5 ∧ ∃ n : ℤ, round_step 5 (1/2) = (n : ℚ) * (1/2)) :=
  C5_grid_floor 1 (1/10) 5 (1/2) (by norm_num) (by norm_num)
    ⟨100000000000, by norm_num⟩ (by norm_num) (by norm_num)

/-- Claim C5 fails as stated for arbitrary positive grid units: with input 1
and tick 2/3, the `round(., 12)` inside `_round_tick` moves the result off
the grid, so it is not an exact integer multiple of the tick. -/
theorem C5_counterexample :
    (0:ℚ) ≤ 1 ∧ (0:ℚ) < 2/3 ∧ ¬ ∃ n : ℤ, round_tick 1 (2/3) = (n : ℚ) * (2/3) := by
  refine ⟨by norm_num, by norm_num, ?_⟩
  rintro ⟨n, hn⟩
  have hv : round_tick 1 (2/3) = 666666666667 / 10^12 := by
    apply round_tick_two_thirds
    rw [Int.floor_eq_iff]
    constructor
    · norm_num
    · norm_num
  rw [hv] at hn
  have h2 : (666666666667 : ℚ) * 3 = (n : ℚ) * (2 * 10^12) := by
    field_simp at hn
    linarith
  have h3 : (666666666667 : ℤ) * 3 = n * (2 * 10^12) := by exact_mod_cast h2
  omega

/-- Claim C9 (amended): `_round_step` is idempotent and fixes grid-aligned
values for every positive step; `_round_tick` has both properties provided
the tick is an integer multiple of `10 ^ (-12)` (as all exchange ticks are). -/
theorem C9_idempotent (tick step x y : ℚ) (htick : 0 < tick) (hstep : 0 < step)
    (hk : ∃ k : ℤ, tick * 10^12 = (k : ℚ)) :
    (∀ n : ℤ, round_tick ((n : ℚ) * tick) tick = (n : ℚ) * tick) ∧
    round_tick (round_tick x tick) tick = round_tick x tick ∧
    (∀ n : ℤ, round_step ((n : ℚ) * step) step = (n : ℚ) * step) ∧
    round_step (round_step y step) step = round_step y step := by
  obtain ⟨k, hk⟩ := hk
  have haligned : ∀ n : ℤ, round_tick ((n : ℚ) * tick) tick = (n : ℚ) * tick := by
    intro n
    rw [round_tick_of_tickmul _ tick k hk, mul_div_cancel_right₀ _ htick.ne',
      Int.floor_intCast]
  have hstep_aligned : ∀ n : ℤ, round_step ((n : ℚ) * step) step = (n : ℚ) * step :=
    fun n => round_step_int_mul n step hstep.ne'
  refine ⟨haligned, ?_, hstep_aligned, ?_⟩
  · rw [round_tick_of_tickmul x tick k hk]
    exact haligned ⌊x / tick⌋
  · unfold round_step
    exact hstep_aligned ⌊y / step⌋

theorem C9_idempotent_witness :
    (∀ n : ℤ, round_tick ((n : ℚ) * (1/10)) (1/10) = (n : ℚ) * (1/10)) ∧
    round_tick (round_tick 1 (1/10)) (1/10) = round_tick 1 (1/10) ∧
    (∀ n : ℤ, round_step ((n : ℚ) * (1/2)) (1/2) = (n : ℚ) * (1/2)) ∧
    round_step (round_step 5 (1/2)) (1/2) = round_step 5 (1/2) :=
  C9_idempotent (1/10) (1/2) 1 5 (by norm_num) (by norm_num)
    ⟨100000000000, by norm_num⟩

/-- Claim C9 fails as stated for arbitrary positive grid units: 2/3 is
aligned to the grid of tick 2/3 (it is 1 times the tick), yet
`_round_tick` does not return it unchanged, because of `round(., 12)`. -/
theorem C9_counterexample :
    (0:ℚ) < 2/3 ∧ (2/3 : ℚ) = ((1 : ℤ) : ℚ) * (2/3) ∧
    round_tick (2/3) (2/3) ≠ 2/3 := by
  refine ⟨by norm_num, by norm_num, ?_⟩
  have hv : round_tick (2/3) (2/3) = 666666666667 / 10^12 := by
    apply round_tick_two_thirds
    rw [Int.floor_eq_iff]
    constructor
    · norm_num
    · norm_num
  rw [hv]
  norm_num

/-! ### `place_oco` (lines 45-116): the submitted request

`place_oco` re-quantizes all four values with its local `q_dec`/`p_dec`,
forces the stop-limit below the stop-trigger, raises the quantity when a
leg would violate the minimum notional, and posts the resulting
`quantity`/`price`/`stopPrice`/`stopLimitPrice` parameters.  The request
parameters are modelled by `OcoRequest`; the HTTP outcome is part of the
environment of the callers. -/

structure OcoRequest where
  qty : ℚ
  tp : ℚ
  slTrigger : ℚ
  slLimit : ℚ
deriving DecidableEq

/-- Lines 60-79: the parameters `place_oco` submits, given the symbol
filters `tick`, `step`, `minNotional` and the caller arguments. -/
def place_oco_request (tick step minNotional quantity tp slTrigger slLimit : ℚ) :
    OcoRequest :=
  let qty := q_dec quantity step
  let tpq := p_dec tp tick
  let slTr := p_dec slTrigger tick
  let slLim0 := p_dec slLimit tick
  let slLim := if slLim0 ≥ slTr then p_dec (slTr - tick) tick else slLim0
  let qty2 := if tpq * qty < minNotional ∨ slTr * qty < minNotional
    then q_dec (minNotional / min tpq slTr * (105/100)) step
    else qty
  ⟨qty2, tpq, slTr, slLim⟩

lemma place_oco_request_slTrigger (tick step mn quantity tp slT slL : ℚ) :
    (place_oco_request tick step mn quantity tp slT slL).slTrigger =
      p_dec slT tick := rfl

lemma place_oco_request_tp (tick step mn quantity tp slT slL : ℚ) :
    (place_oco_request tick step mn quantity tp slT slL).tp = p_dec tp tick := rfl

lemma place_oco_request_slLimit (tick step mn quantity tp slT slL : ℚ) :
    (place_oco_request tick step mn quantity tp slT slL).slLimit =
      if p_dec slL tick ≥ p_dec slT tick
      then p_dec (p_dec slT tick - tick) tick
      else p_dec slL tick := rfl

lemma place_oco_request_qty (tick step mn quantity tp slT slL : ℚ) :
    (place_oco_request tick step mn quantity tp slT slL).qty =
      if p_dec tp tick * q_dec quantity step < mn ∨
         p_dec slT tick * q_dec quantity step < mn
      then q_dec (mn / min (p_dec tp tick) (p_dec slT tick) * (105/100)) step
      else q_dec quantity step := rfl

/-- Quantizing one tick below an already-quantized price is exact. -/
lemma p_dec_sub_tick (v tick : ℚ) (htick : tick ≠ 0) :
    p_dec (p_dec v tick - tick) tick = p_dec v tick - tick := by
  have h : p_dec v tick - tick = ((⌊v / tick⌋ - 1 : ℤ) : ℚ) * tick := by
    unfold p_dec
    push_cast
    ring
  rw [h, p_dec_int_mul _ _ htick]

/-- Claim C4: in every request `place_oco` submits, the stop-limit price is
at least one tick below the stop-trigger price; when the caller-supplied
stop-limit is not below the stop-trigger after quantization it is adjusted
downward (to exactly one tick below) rather than rejected. -/
theorem C4_stop_gap (tick step mn quantity tp slT slL : ℚ) (htick : 0 < tick) :
    (place_oco_request tick step mn quantity tp slT slL).slLimit
      ≤ (place_oco_request tick step mn quantity tp slT slL).slTrigger - tick ∧
    (p_dec slL tick ≥ p_dec slT tick →
      (place_oco_request tick step mn quantity tp slT slL).slLimit
        = (place_oco_request tick step mn quantity tp slT slL).slTrigger - tick) := by
  rw [place_oco_request_slLimit, place_oco_request_slTrigger]
  by_cases h : p_dec slL tick ≥ p_dec slT tick
  · rw [if_pos h, p_dec_sub_tick slT tick htick.ne']
    exact ⟨le_refl _, fun _ => rfl⟩
  · rw [if_neg h]
    refine ⟨?_, fun hc => absurd hc h⟩
    push_neg at h
    unfold p_dec at h ⊢
    have hj : ⌊slL / tick⌋ < ⌊slT / tick⌋ := by
      exact_mod_cast lt_of_mul_lt_mul_right h htick.le
    have hj2 : (⌊slL / tick⌋ : ℚ) ≤ (⌊slT / tick⌋ : ℚ) - 1 := by
      have h3 : ⌊slL / tick⌋ ≤ ⌊slT / tick⌋ - 1 := by omega
      exact_mod_cast h3
    calc (⌊slL / tick⌋ : ℚ) * tick
        ≤ ((⌊slT / tick⌋ : ℚ) - 1) * tick := mul_le_mul_of_nonneg_right hj2 htick.le
      _ = (⌊slT / tick⌋ : ℚ) * tick - tick := by ring

theorem C4_stop_gap_witness :
    (place_oco_request (1/10) 1 5 10 110 95 96).slLimit
      ≤ (place_oco_request (1/10) 1 5 10 110 95 96).slTrigger - 1/10 ∧
    (p_dec 96 (1/10) ≥ p_dec 95 (1/10) →
      (place_oco_request (1/10) 1 5 10 110 95 96).slLimit
        = (place_oco_request (1/10) 1 5 10 110 95 96).slTrigger - 1/10) :=
  C4_stop_gap (1/10) 1 5 10 110 95 96 (by norm_num)

/-! ### Environment of exchange responses for `place_bracket_atomic`

`place_bracket_atomic` (lines 324-541) interacts with the exchange through
`execute_market_buy`, `get_asset_balance`, `get_symbol_ticker`,
`_get_symbol_info` and `place_oco`.  Each response is drawn from this
environment, making the function a deterministic program of it.  `verify_oco`
and `track_oco` are not modelled: both the verification-timeout branch
(line 490) and the normal exit (line 534) return the identical record, and
tracking failures are swallowed (lines 500-505). -/

structure Env where
  /-- `tickSize` of the symbol (also refetched at line 423). -/
  tick : ℚ
  /-- `stepSize` of the symbol. -/
  step : ℚ
  /-- Ticker price at entry (line 344, never used afterwards). -/
  lastPx : ℚ
  /-- `execute_market_buy` outcome: `none` is an exception before a fill,
  `some (filled_qty, avg_price)` a verified fill (lines 350-354). -/
  buy : Option (ℚ × ℚ)
  /-- The i-th `get_asset_balance` response in the settlement wait
  (lines 401-417): `none` is a fetch exception, `some (free, locked)`. -/
  balances : ℕ → Option (ℚ × ℚ)
  /-- Ticker price at submission time (line 432). -/
  lastNow : ℚ
  /-- Per-attempt `MIN_NOTIONAL` fetch in the retry loop (lines 448-453):
  `none` models the caught filter-fetch exception (line 461). -/
  mnFetch : ℕ → Option ℚ
  /-- The `MIN_NOTIONAL` filter value seen inside `place_oco` itself. -/
  minNotional : ℚ
  /-- Per-attempt `place_oco` outcome: an exception message, or the
  `orderListId` field of the response (`none` models a missing field). -/
  ocoSend : ℕ → Except String (Option ℕ)
  /-- Per-attempt free-balance refetch inside the retry handler
  (lines 476-477): `none` is a fetch exception (line 483). -/
  retryBal : ℕ → Option ℚ
  /-- `verify_oco` result; unused because both branches return the same
  record (lines 488-497 versus 534-541). -/
  verifyOk : Bool

/-! ### Balance settlement wait (lines 396-417)

`while waited < 30: fetch; if free+locked >= filled*0.95: break;
sleep(2); waited += 2` — at most 15 polls.  A fetch exception keeps the
previous `free`/`locked` (initially 0) and continues. -/

def balanceWaitAux (bal : ℕ → Option (ℚ × ℚ)) (filled : ℚ) :
    ℕ → ℕ → ℚ → ℚ → ℕ × ℚ × ℚ
  | 0, i, f, l => (i, f, l)
  | fuel+1, i, f, l =>
    match bal i with
    | some (f2, l2) =>
      if f2 + l2 ≥ filled * (95/100) then (i+1, f2, l2)
      else balanceWaitAux bal filled fuel (i+1) f2 l2
    | none => balanceWaitAux bal filled fuel (i+1) f l

/-- The wait loop: returns (number of polls, last free, last locked). -/
def balanceWait (bal : ℕ → Option (ℚ × ℚ)) (filled : ℚ) : ℕ × ℚ × ℚ :=
  balanceWaitAux bal filled 15 0 0 0

/-! ### The OCO submission retry loop (lines 443-485) -/

/-- One recorded submission attempt: the loop-state quantity (`qty_str`)
entering the attempt, and the request `place_oco` posted. -/
structure AttemptRec where
  qtyIn : ℚ
  req : OcoRequest
deriving DecidableEq

/-- How the retry loop ends: `break` with a truthy `orderListId`, or an
exception re-raised out of the loop.  `localId` is the value of the local
`oco_id` at that point (`none` is Python `None`). -/
inductive LoopExit where
  | ok (id : ℕ)
  | raised (msg : String) (localId : Option ℕ)
deriving DecidableEq

/-- Line 468 message. -/
def missingIdMsg : String := "OCO response missing orderListId"

/-- Python truthiness of `oco.get("orderListId")`: `None` and `0` are falsy. -/
def truthyId : Option ℕ → Option ℕ
  | some n => if n = 0 then none else some n
  | none => none

/-- The `except` handler of one attempt (lines 470-485): retry only when
the lowered message contains "insufficient balance" and attempts remain,
and only after a successful balance refetch producing a non-dust resized
quantity; otherwise re-raise. -/
def ocoHandle (env : Env) (filled step : ℚ) (a : ℕ) (msg : String)
    (localId : Option ℕ) (att : AttemptRec)
    (retryNext : ℚ → List AttemptRec × LoopExit) :
    List AttemptRec × LoopExit :=
  if isInsuffBal msg = true ∧ a < 2 then
    match env.retryBal a with
    | some free =>
      if round_step (min free filled * (999/1000)) step ≥ step
      then retryNext (round_step (min free filled * (999/1000)) step)
      else ([att], .raised msg localId)
    | none => ([att], .raised msg localId)
  else ([att], .raised msg localId)

/-- Lines 448-462: the per-attempt minimum-notional re-enforcement of the
loop-state quantity `qty_str`, skipped when the filter fetch fails. -/
def attemptQty (env : Env) (tp sl step : ℚ) (a : ℕ) (q : ℚ) : ℚ :=
  match env.mnFetch a with
  | some mn =>
    if tp * q < mn ∨ sl * q < mn
    then round_step (mn / min tp sl * (102/100)) step
    else q
  | none => q

/-- The request posted by attempt `a` entered with loop-state quantity `q`. -/
def attemptReq (env : Env) (tp sl slLim step : ℚ) (a : ℕ) (q : ℚ) : OcoRequest :=
  place_oco_request env.tick env.step env.minNotional
    (attemptQty env tp sl step a q) tp sl slLim

/-- The `for attempt in range(3)` loop (lines 445-485).  Each attempt first
re-enforces the minimum notional, then posts via `place_oco`; a truthy
`orderListId` breaks, a falsy one raises `missingIdMsg` into the same
handler. -/
def ocoLoopAux (env : Env) (tp sl slLim filled step : ℚ) :
    ℕ → ℕ → ℚ → List AttemptRec × LoopExit
  | 0, _, _ => ([], .raised "" none)
  | fuel+1, a, q =>
    match env.ocoSend a with
    | .ok resp =>
      match truthyId resp with
      | some id => ([⟨q, attemptReq env tp sl slLim step a q⟩], .ok id)
      | none =>
        ocoHandle env filled step a missingIdMsg resp
          ⟨q, attemptReq env tp sl slLim step a q⟩
          (fun sq =>
            (⟨q, attemptReq env tp sl slLim step a q⟩ ::
                (ocoLoopAux env tp sl slLim filled step fuel (a+1) sq).1,
             (ocoLoopAux env tp sl slLim filled step fuel (a+1) sq).2))
    | .error msg =>
      ocoHandle env filled step a msg none
        ⟨q, attemptReq env tp sl slLim step a q⟩
        (fun sq =>
          (⟨q, attemptReq env tp sl slLim step a q⟩ ::
              (ocoLoopAux env tp sl slLim filled step fuel (a+1) sq).1,
           (ocoLoopAux env tp sl slLim filled step fuel (a+1) sq).2))

def ocoLoop (env : Env) (tp sl slLim filled step q0 : ℚ) :
    List AttemptRec × LoopExit :=
  ocoLoopAux env tp sl slLim filled step 3 0 q0

/-! ### `place_bracket_atomic` (lines 324-541) -/

/-- The returned dict (lines 490-497, 521-528, 534-541). -/
structure BracketResult where
  filled_qty : ℚ
  avg_price : ℚ
  tp : ℚ
  sl_trigger : ℚ
  sl_limit : ℚ
  oco_id : Option ℕ
deriving DecidableEq

inductive Outcome where
  | ret (r : BracketResult)
  | err (msg : String)
deriving DecidableEq

/-- An execution trace: every `market_sell` attempt (the flatten calls at
lines 370 and 383, recorded even though their own failure is swallowed),
every posted OCO request, the number of balance polls, and the outcome. -/
structure Trace where
  sells : List ℚ
  attempts : List AttemptRec
  balancePolls : ℕ
  outcome : Outcome
deriving DecidableEq

/-- Line 354 wrapper message. -/
def buyFailedMsg : String := "Market buy failed"

/-- Lines 373-378 message (numeric details elided; no soft token occurs). -/
def invalidRelationMsg : String := "Invalid OCO price relation after fill"

/-- Lines 386-389 message (numeric details elided; no soft token occurs). -/
def invalidSlMsg : String := "Invalid SL prices: limit must be below trigger"

/-- Lines 426-428 message (numeric details elided; no soft token occurs). -/
def dustMsg : String := "After rounding, tradable amount is dust"

/-- The unified outer handler (lines 507-531): soft errors return a
success-shaped dict with whatever `oco_id` is in scope; hard errors
re-raise wrapped. -/
def outerHandle (msg : String) (filled_qty avg_price tp sl slLim : ℚ)
    (localId : Option ℕ) : Outcome :=
  if isSoft msg = true then .ret ⟨filled_qty, avg_price, tp, sl, slLim, localId⟩
  else .err ("OCO placement failed: " ++ msg)

/-- The live-price sanity shift (lines 431-441): if the live price has
crossed a trigger, move that trigger one tick past the live price. -/
def adjustTriggers (tick offset lastNow tp sl slLim : ℚ) : ℚ × ℚ × ℚ :=
  let s2 := if lastNow ≤ sl then round_tick (lastNow - tick) tick else sl
  let l2 := if lastNow ≤ sl then round_tick (s2 * (1 - offset)) tick else slLim
  let t2 := if lastNow ≥ tp then round_tick (lastNow + tick) tick else tp
  (t2, s2, l2)

/-- `place_bracket_atomic(symbol, spend_usd, entry_hint, tp_price,
sl_trigger, sl_limit_offset_frac)`.  `symbol`, `spend_usd` and
`entry_hint` only route through the exchange interaction, which the
environment already captures, so they are not parameters of the model. -/
def place_bracket_atomic (env : Env) (tp_price sl_trigger offset : ℚ) : Trace :=
  match env.buy with
  | none => ⟨[], [], 0, .err buyFailedMsg⟩
  | some (filled_qty, avg_price) =>
    let tick := env.tick
    let tp_r := round_tick tp_price tick
    let sl_tr_r := round_tick sl_trigger tick
    let sl_lim_r := round_tick (sl_trigger * (1 - offset)) tick
    if ¬ (tp_r > avg_price ∧ avg_price > sl_tr_r) then
      ⟨[filled_qty], [], 0, .err invalidRelationMsg⟩
    else if sl_lim_r ≥ sl_tr_r then
      ⟨[filled_qty], [], 0, .err invalidSlMsg⟩
    else
      let w := balanceWait env.balances filled_qty
      let step := env.step
      let safe_qty := round_step (min w.2.1 filled_qty * (999/1000)) step
      if safe_qty < step then
        ⟨[], [], w.1,
          outerHandle dustMsg filled_qty avg_price tp_r sl_tr_r sl_lim_r none⟩
      else
        let adj := adjustTriggers tick offset env.lastNow tp_r sl_tr_r sl_lim_r
        let L := ocoLoop env adj.1 adj.2.1 adj.2.2 filled_qty step safe_qty
        match L.2 with
        | .ok id =>
          ⟨[], L.1, w.1,
            .ret ⟨filled_qty, avg_price, adj.1, adj.2.1, adj.2.2, some id⟩⟩
        | .raised msg localId =>
          ⟨[], L.1, w.1,
            outerHandle msg filled_qty avg_price adj.1 adj.2.1 adj.2.2 localId⟩

/-! ### `place_oco_after_fill` (lines 226-300)

Only the submitted request is needed by the claims, so the model stops at
the `place_oco` call; its wait loop has no `try` around the balance fetch,
hence total responses. -/

structure PofEnv where
  tick : ℚ
  step : ℚ
  minNotional : ℚ
  balances : ℕ → ℚ × ℚ

/-- Lines 250-254 message (numeric details elided). -/
def pofRelationMsg : String := "Invalid OCO price relation"

def place_oco_after_fill (env : PofEnv)
    (filled_qty fill_price tp_price sl_trigger offset : ℚ) :
    Except String OcoRequest :=
  let tick := env.tick
  let step := env.step
  let tp_r := round_tick tp_price tick
  let sl_tr_r := round_tick sl_trigger tick
  let sl_lim_r := round_tick (sl_trigger * (1 - offset)) tick
  if ¬ (tp_r > fill_price ∧ fill_price > sl_tr_r) then .error pofRelationMsg
  else
    let sl_lim2 := if sl_lim_r ≥ sl_tr_r then round_tick (sl_tr_r - tick) tick
      else sl_lim_r
    let free := (balanceWait (fun i => some (env.balances i)) filled_qty).2.1
    let safe_qty := round_step (min free filled_qty * (999/1000)) step
    if safe_qty < step then .error dustMsg
    else .ok (place_oco_request tick step env.minNotional safe_qty tp_r sl_tr_r sl_lim2)

/-! ### Lemmas about the balance settlement wait -/

lemma balanceWaitAux_polls_le (bal : ℕ → Option (ℚ × ℚ)) (filled : ℚ) :
    ∀ fuel i f l, (balanceWaitAux bal filled fuel i f l).1 ≤ i + fuel := by
  intro fuel
  induction fuel with
  | zero => intro i f l; simp [balanceWaitAux]
  | succ n ih =>
    intro i f l
    simp only [balanceWaitAux]
    rcases hb : bal i with _ | ⟨f2, l2⟩
    · simpa using (ih (i+1) f l).trans (by omega)
    · by_cases hc : f2 + l2 ≥ filled * (95/100)
      · simp only [if_pos hc]
        omega
      · simp only [if_neg hc]
        exact (ih (i+1) f2 l2).trans (by omega)

lemma balanceWaitAux_early (bal : ℕ → Option (ℚ × ℚ)) (filled : ℚ) :
    ∀ fuel i f0 l0 j f l, i ≤ j → j < i + fuel →
      bal j = some (f, l) → f + l ≥ filled * (95/100) →
      (∀ m f2 l2, i ≤ m → m < j → bal m = some (f2, l2) →
        f2 + l2 < filled * (95/100)) →
      balanceWaitAux bal filled fuel i f0 l0 = (j+1, f, l) := by
  intro fuel
  induction fuel with
  | zero => intro i f0 l0 j f l h1 h2; omega
  | succ n ih =>
    intro i f0 l0 j f l h1 h2 hj hge hprev
    simp only [balanceWaitAux]
    rcases Nat.eq_or_lt_of_le h1 with rfl | hlt
    · rw [hj]
      simp only [if_pos hge]
    · rcases hb : bal i with _ | ⟨f2, l2⟩
      · exact ih (i+1) f0 l0 j f l hlt (by omega) hj hge
          (fun m fm lm hm1 hm2 => hprev m fm lm (by omega) hm2)
      · have hbelow := hprev i f2 l2 (le_refl i) hlt hb
        simp only [if_neg (not_le.mpr hbelow)]
        exact ih (i+1) f2 l2 j f l hlt (by omega) hj hge
          (fun m fm lm hm1 hm2 => hprev m fm lm (by omega) hm2)

lemma balanceWaitAux_timeout (bal : ℕ → Option (ℚ × ℚ)) (filled : ℚ) :
    ∀ fuel i f0 l0,
      (∀ m f2 l2, i ≤ m → m < i + fuel → bal m = some (f2, l2) →
        f2 + l2 < filled * (95/100)) →
      (balanceWaitAux bal filled fuel i f0 l0).1 = i + fuel := by
  intro fuel
  induction fuel with
  | zero => intro i f0 l0 _; simp [balanceWaitAux]
  | succ n ih =>
    intro i f0 l0 hall
    simp only [balanceWaitAux]
    rcases hb : bal i with _ | ⟨f2, l2⟩
    · rw [ih (i+1) f0 l0 (fun m fm lm hm1 hm2 => hall m fm lm (by omega) (by omega))]
      omega
    · have hbelow := hall i f2 l2 (le_refl i) (by omega) hb
      simp only [if_neg (not_le.mpr hbelow)]
      rw [ih (i+1) f2 l2 (fun m fm lm hm1 hm2 => hall m fm lm (by omega) (by omega))]
      omega

lemma balanceWaitAux_timeout_last (bal : ℕ → Option (ℚ × ℚ)) (filled : ℚ) :
    ∀ fuel i f0 l0 f l, 1 ≤ fuel →
      (∀ m f2 l2, i ≤ m → m < i + fuel → bal m = some (f2, l2) →
        f2 + l2 < filled * (95/100)) →
      bal (i + fuel - 1) = some (f, l) →
      balanceWaitAux bal filled fuel i f0 l0 = (i + fuel, f, l) := by
  intro fuel
  induction fuel with
  | zero => intro i f0 l0 f l h1; omega
  | succ n ih =>
    intro i f0 l0 f l _ hall hlast
    simp only [balanceWaitAux]
    rcases Nat.eq_zero_or_pos n with rfl | hn
    · have : i + 1 - 1 = i := by omega
      rw [this] at hlast
      rw [hlast]
      have hbelow := hall i f l (le_refl i) (by omega) hlast
      simp only [if_neg (not_le.mpr hbelow)]
      simp [balanceWaitAux]
    · have hidx : i + (n + 1) - 1 = (i + 1) + n - 1 := by omega
      rcases hb : bal i with _ | ⟨f2, l2⟩
      · rw [ih (i+1) f0 l0 f l hn
          (fun m fm lm hm1 hm2 => hall m fm lm (by omega) (by omega))
          (by rw [← hidx]; exact hlast)]
        refine congrArg (fun z => (z, f, l)) (by omega)
      · have hbelow := hall i f2 l2 (le_refl i) (by omega) hb
        simp only [if_neg (not_le.mpr hbelow)]
        rw [ih (i+1) f2 l2 f l hn
          (fun m fm lm hm1 hm2 => hall m fm lm (by omega) (by omega))
          (by rw [← hidx]; exact hlast)]
        refine congrArg (fun z => (z, f, l)) (by omega)

/-! ### Lemmas about the OCO submission retry loop -/

lemma isInsuffBal_missingId : isInsuffBal missingIdMsg = false := by decide

lemma ocoHandle_cases (env : Env) (filled step : ℚ) (a : ℕ) (msg : String)
    (localId : Option ℕ) (att : AttemptRec)
    (next : ℚ → List AttemptRec × LoopExit) :
    (∃ free,
      isInsuffBal msg = true ∧ a < 2 ∧ env.retryBal a = some free ∧
      step ≤ round_step (min free filled * (999/1000)) step ∧
      ocoHandle env filled step a msg localId att next =
        next (round_step (min free filled * (999/1000)) step)) ∨
    ocoHandle env filled step a msg localId att next =
      ([att], .raised msg localId) := by
  unfold ocoHandle
  split
  · rename_i h1
    split
    · rename_i free hr
      split
      · rename_i h2
        exact Or.inl ⟨free, h1.1, h1.2, hr, h2, rfl⟩
      · exact Or.inr rfl
    · exact Or.inr rfl
  · exact Or.inr rfl

lemma ocoLoopAux_length_le (env : Env) (tp sl slLim filled step : ℚ) :
    ∀ fuel a q, (ocoLoopAux env tp sl slLim filled step fuel a q).1.length ≤ fuel := by
  intro fuel
  induction fuel with
  | zero => intro a q; simp [ocoLoopAux]
  | succ n ih =>
    intro a q
    simp only [ocoLoopAux]
    split
    · split
      · simp
      · rcases ocoHandle_cases env filled step a missingIdMsg _
          ⟨q, attemptReq env tp sl slLim step a q⟩
          (fun sq =>
            (⟨q, attemptReq env tp sl slLim step a q⟩ ::
                (ocoLoopAux env tp sl slLim filled step n (a+1) sq).1,
             (ocoLoopAux env tp sl slLim filled step n (a+1) sq).2)) with
          ⟨free, _, _, _, _, heq⟩ | heq
        · rw [heq]
          simpa using ih (a+1) _
        · rw [heq]
          simp
    · rename_i msg hsend
      rcases ocoHandle_cases env filled step a msg none
        ⟨q, attemptReq env tp sl slLim step a q⟩
        (fun sq =>
          (⟨q, attemptReq env tp sl slLim step a q⟩ ::
              (ocoLoopAux env tp sl slLim filled step n (a+1) sq).1,
           (ocoLoopAux env tp sl slLim filled step n (a+1) sq).2)) with
        ⟨free, _, _, _, _, heq⟩ | heq
      · rw [heq]
        simpa using ih (a+1) _
      · rw [heq]
        simp

lemma ocoLoopAux_cons (env : Env) (tp sl slLim filled step : ℚ) :
    ∀ fuel a q, 1 ≤ fuel →
      ∃ t ex, ocoLoopAux env tp sl slLim filled step fuel a q =
        (⟨q, attemptReq env tp sl slLim step a q⟩ :: t, ex) := by
  intro fuel
  cases fuel with
  | zero => intro a q h; omega
  | succ n =>
    intro a q _
    simp only [ocoLoopAux]
    split
    · split
      · exact ⟨[], _, rfl⟩
      · rcases ocoHandle_cases env filled step a missingIdMsg _
          ⟨q, attemptReq env tp sl slLim step a q⟩
          (fun sq =>
            (⟨q, attemptReq env tp sl slLim step a q⟩ ::
                (ocoLoopAux env tp sl slLim filled step n (a+1) sq).1,
             (ocoLoopAux env tp sl slLim filled step n (a+1) sq).2)) with
          ⟨free, _, _, _, _, heq⟩ | heq
        · rw [heq]
          exact ⟨_, _, rfl⟩
        · rw [heq]
          exact ⟨[], _, rfl⟩
    · rename_i msg hsend
      rcases ocoHandle_cases env filled step a msg none
        ⟨q, attemptReq env tp sl slLim step a q⟩
        (fun sq =>
          (⟨q, attemptReq env tp sl slLim step a q⟩ ::
              (ocoLoopAux env tp sl slLim filled step n (a+1) sq).1,
           (ocoLoopAux env tp sl slLim filled step n (a+1) sq).2)) with
        ⟨free, _, _, _, _, heq⟩ | heq
      · rw [heq]
        exact ⟨_, _, rfl⟩
      · rw [heq]
        exact ⟨[], _, rfl⟩

/-- Every attempt after the first one is entered only through the
insufficient-balance retry: its loop-state quantity was recomputed from the
freshly fetched free balance. -/
lemma ocoLoopAux_succ (env : Env) (tp sl slLim filled step : ℚ) :
    ∀ fuel a q j r,
      ((ocoLoopAux env tp sl slLim filled step fuel a q).1)[j+1]? = some r →
      ∃ msg free,
        env.ocoSend (a+j) = .error msg ∧ isInsuffBal msg = true ∧ a + j < 2 ∧
        env.retryBal (a+j) = some free ∧
        r.qtyIn = round_step (min free filled * (999/1000)) step ∧
        step ≤ r.qtyIn := by
  intro fuel
  induction fuel with
  | zero => intro a q j r h; simp [ocoLoopAux] at h
  | succ n ih =>
    intro a q j r h
    rcases hsend : env.ocoSend a with msg0 | resp
    · simp only [ocoLoopAux, hsend] at h
      rcases ocoHandle_cases env filled step a msg0 none
        ⟨q, attemptReq env tp sl slLim step a q⟩
        (fun sq =>
          (⟨q, attemptReq env tp sl slLim step a q⟩ ::
              (ocoLoopAux env tp sl slLim filled step n (a+1) sq).1,
           (ocoLoopAux env tp sl slLim filled step n (a+1) sq).2)) with
        ⟨free, h1, h2, h3, h4, heq⟩ | heq
      · rw [heq] at h
        simp only [List.getElem?_cons_succ] at h
        cases j with
        | zero =>
          cases n with
          | zero => simp [ocoLoopAux] at h
          | succ m =>
            obtain ⟨t, ex, hcons⟩ := ocoLoopAux_cons env tp sl slLim filled step
              (m+1) (a+1) (round_step (min free filled * (999/1000)) step)
              (by omega)
            rw [hcons] at h
            simp only [List.getElem?_cons_zero, Option.some.injEq] at h
            refine ⟨msg0, free, by simpa using hsend, h1, by omega, by simpa using h3,
              ?_, ?_⟩
            · rw [← h]
            · rw [← h]
              exact h4
        | succ j2 =>
          have e2 : a + (j2+1) = (a+1) + j2 := by omega
          obtain ⟨msg2, free2, hh1, hh2, hh3, hh4, hh5, hh6⟩ := ih (a+1) _ j2 r h
          exact ⟨msg2, free2, by rwa [e2], hh2, by omega, by rwa [e2], hh5, hh6⟩
      · rw [heq] at h
        simp at h
    · rcases htr : truthyId resp with _ | id
      · simp only [ocoLoopAux, hsend, htr] at h
        rcases ocoHandle_cases env filled step a missingIdMsg resp
          ⟨q, attemptReq env tp sl slLim step a q⟩
          (fun sq =>
            (⟨q, attemptReq env tp sl slLim step a q⟩ ::
                (ocoLoopAux env tp sl slLim filled step n (a+1) sq).1,
             (ocoLoopAux env tp sl slLim filled step n (a+1) sq).2)) with
          ⟨free, h1, h2, h3, h4, heq⟩ | heq
        · rw [isInsuffBal_missingId] at h1
          cases h1
        · rw [heq] at h
          simp at h
      · simp only [ocoLoopAux, hsend, htr] at h
        simp at h

/-- A failed attempt whose message does not contain "insufficient balance"
ends the loop at once: no further submission, the exception is re-raised. -/
lemma ocoLoopAux_stop (env : Env) (tp sl slLim filled step : ℚ) :
    ∀ fuel a q j msg,
      (((ocoLoopAux env tp sl slLim filled step fuel a q).1)[j]?).isSome = true →
      env.ocoSend (a+j) = .error msg → isInsuffBal msg = false →
      (ocoLoopAux env tp sl slLim filled step fuel a q).1.length = j + 1 ∧
      (ocoLoopAux env tp sl slLim filled step fuel a q).2 = .raised msg none := by
  intro fuel
  induction fuel with
  | zero => intro a q j msg h; simp [ocoLoopAux] at h
  | succ n ih =>
    intro a q j msg h hsend hins
    cases j with
    | zero =>
      rw [Nat.add_zero] at hsend
      simp only [ocoLoopAux, hsend] at h ⊢
      rcases ocoHandle_cases env filled step a msg none
        ⟨q, attemptReq env tp sl slLim step a q⟩
        (fun sq =>
          (⟨q, attemptReq env tp sl slLim step a q⟩ ::
              (ocoLoopAux env tp sl slLim filled step n (a+1) sq).1,
           (ocoLoopAux env tp sl slLim filled step n (a+1) sq).2)) with
        ⟨free, h1, h2, h3, h4, heq⟩ | heq
      · rw [hins] at h1
        cases h1
      · rw [heq]
        simp
    | succ j2 =>
      rcases hsend0 : env.ocoSend a with msg0 | resp
      · simp only [ocoLoopAux, hsend0] at h ⊢
        rcases ocoHandle_cases env filled step a msg0 none
          ⟨q, attemptReq env tp sl slLim step a q⟩
          (fun sq =>
            (⟨q, attemptReq env tp sl slLim step a q⟩ ::
                (ocoLoopAux env tp sl slLim filled step n (a+1) sq).1,
             (ocoLoopAux env tp sl slLim filled step n (a+1) sq).2)) with
          ⟨free, h1, h2, h3, h4, heq⟩ | heq
        · rw [heq] at h ⊢
          simp only [List.getElem?_cons_succ] at h
          have e : a + (j2+1) = (a+1) + j2 := by omega
          obtain ⟨hlen, hexit⟩ := ih (a+1) _ j2 msg h (by rwa [e] at hsend) hins
          constructor
          · simp [hlen]
          · simpa using hexit
        · rw [heq] at h
          simp at h
      · rcases htr : truthyId resp with _ | id
        · simp only [ocoLoopAux, hsend0, htr] at h ⊢
          rcases ocoHandle_cases env filled step a missingIdMsg resp
            ⟨q, attemptReq env tp sl slLim step a q⟩
            (fun sq =>
              (⟨q, attemptReq env tp sl slLim step a q⟩ ::
                  (ocoLoopAux env tp sl slLim filled step n (a+1) sq).1,
               (ocoLoopAux env tp sl slLim filled step n (a+1) sq).2)) with
            ⟨free, h1, h2, h3, h4, heq⟩ | heq
          · rw [isInsuffBal_missingId] at h1
            cases h1
          · rw [heq] at h
            simp at h
        · simp only [ocoLoopAux, hsend0, htr] at h
          simp at h

/-! ### Small-step evaluation lemmas for the retry loop -/

lemma ocoLoopAux_step_retry (env : Env) (tp sl slLim filled step : ℚ)
    (fuel a : ℕ) (q free : ℚ) (msg : String)
    (hsend : env.ocoSend a = .error msg) (hins : isInsuffBal msg = true)
    (ha : a < 2) (hbal : env.retryBal a = some free)
    (hsq : round_step (min free filled * (999/1000)) step ≥ step) :
    ocoLoopAux env tp sl slLim filled step (fuel+1) a q =
      (⟨q, attemptReq env tp sl slLim step a q⟩ ::
          (ocoLoopAux env tp sl slLim filled step fuel (a+1)
            (round_step (min free filled * (999/1000)) step)).1,
       (ocoLoopAux env tp sl slLim filled step fuel (a+1)
          (round_step (min free filled * (999/1000)) step)).2) := by
  simp only [ocoLoopAux, hsend]
  unfold ocoHandle
  rw [if_pos ⟨hins, ha⟩]
  simp only [hbal]
  rw [if_pos hsq]

lemma ocoLoopAux_step_raise (env : Env) (tp sl slLim filled step : ℚ)
    (fuel a : ℕ) (q : ℚ) (msg : String)
    (hsend : env.ocoSend a = .error msg)
    (hc : ¬ (isInsuffBal msg = true ∧ a < 2)) :
    ocoLoopAux env tp sl slLim filled step (fuel+1) a q =
      ([⟨q, attemptReq env tp sl slLim step a q⟩], .raised msg none) := by
  simp only [ocoLoopAux, hsend]
  unfold ocoHandle
  rw [if_neg hc]

lemma ocoLoopAux_step_ok (env : Env) (tp sl slLim filled step : ℚ)
    (fuel a : ℕ) (q : ℚ) (id : ℕ)
    (hsend : env.ocoSend a = .ok (some id)) (hid : id ≠ 0) :
    ocoLoopAux env tp sl slLim filled step (fuel+1) a q =
      ([⟨q, attemptReq env tp sl slLim step a q⟩], .ok id) := by
  simp only [ocoLoopAux, hsend, truthyId]
  rw [if_neg hid]

/-! ### The main path of `place_bracket_atomic`

When the buy fills, both validation gates pass and the safe quantity is not
dust, the trace is determined by the balance wait, the trigger adjustment
and the retry loop. -/

/-- The `safe_qty` of lines 422-424 computed from the settled balance. -/
def safeQty (env : Env) (fq : ℚ) : ℚ :=
  round_step (min (balanceWait env.balances fq).2.1 fq * (999/1000)) env.step

/-- The quantized triggers after the live-price sanity shift. -/
def adjT (env : Env) (tp_price sl_trigger offset : ℚ) : ℚ × ℚ × ℚ :=
  adjustTriggers env.tick offset env.lastNow (round_tick tp_price env.tick)
    (round_tick sl_trigger env.tick)
    (round_tick (sl_trigger * (1 - offset)) env.tick)

lemma pba_main (env : Env) (tp_price sl_trigger offset fq ap : ℚ)
    (hbuy : env.buy = some (fq, ap))
    (hrel1 : round_tick tp_price env.tick > ap)
    (hrel2 : ap > round_tick sl_trigger env.tick)
    (hsl : round_tick (sl_trigger * (1 - offset)) env.tick
      < round_tick sl_trigger env.tick)
    (hdust : env.step ≤ safeQty env fq) :
    (place_bracket_atomic env tp_price sl_trigger offset).sells = [] ∧
    (place_bracket_atomic env tp_price sl_trigger offset).attempts =
      (ocoLoop env (adjT env tp_price sl_trigger offset).1
        (adjT env tp_price sl_trigger offset).2.1
        (adjT env tp_price sl_trigger offset).2.2
        fq env.step (safeQty env fq)).1 ∧
    (place_bracket_atomic env tp_price sl_trigger offset).balancePolls =
      (balanceWait env.balances fq).1 ∧
    (place_bracket_atomic env tp_price sl_trigger offset).outcome =
      (match (ocoLoop env (adjT env tp_price sl_trigger offset).1
          (adjT env tp_price sl_trigger offset).2.1
          (adjT env tp_price sl_trigger offset).2.2
          fq env.step (safeQty env fq)).2 with
        | .ok id =>
          Outcome.ret ⟨fq, ap, (adjT env tp_price sl_trigger offset).1,
            (adjT env tp_price sl_trigger offset).2.1,
            (adjT env tp_price sl_trigger offset).2.2, some id⟩
        | .raised msg localId =>
          outerHandle msg fq ap (adjT env tp_price sl_trigger offset).1
            (adjT env tp_price sl_trigger offset).2.1
            (adjT env tp_price sl_trigger offset).2.2 localId) := by
  have hmain : place_bracket_atomic env tp_price sl_trigger offset =
      (match (ocoLoop env (adjT env tp_price sl_trigger offset).1
          (adjT env tp_price sl_trigger offset).2.1
          (adjT env tp_price sl_trigger offset).2.2
          fq env.step (safeQty env fq)).2 with
        | .ok id =>
          ⟨[], (ocoLoop env (adjT env tp_price sl_trigger offset).1
              (adjT env tp_price sl_trigger offset).2.1
              (adjT env tp_price sl_trigger offset).2.2
              fq env.step (safeQty env fq)).1,
            (balanceWait env.balances fq).1,
            Outcome.ret ⟨fq, ap, (adjT env tp_price sl_trigger offset).1,
              (adjT env tp_price sl_trigger offset).2.1,
              (adjT env tp_price sl_trigger offset).2.2, some id⟩⟩
        | .raised msg localId =>
          ⟨[], (ocoLoop env (adjT env tp_price sl_trigger offset).1
              (adjT env tp_price sl_trigger offset).2.1
              (adjT env tp_price sl_trigger offset).2.2
              fq env.step (safeQty env fq)).1,
            (balanceWait env.balances fq).1,
            outerHandle msg fq ap (adjT env tp_price sl_trigger offset).1
              (adjT env tp_price sl_trigger offset).2.1
              (adjT env tp_price sl_trigger offset).2.2 localId⟩) := by
    unfold place_bracket_atomic
    simp only [hbuy]
    rw [if_neg (not_not_intro ⟨hrel1, hrel2⟩), if_neg (not_le.mpr hsl),
      if_neg (not_lt.mpr (by simpa [safeQty] using hdust))]
    rfl
  rw [hmain]
  cases (ocoLoop env (adjT env tp_price sl_trigger offset).1
      (adjT env tp_price sl_trigger offset).2.1
      (adjT env tp_price sl_trigger offset).2.2
      fq env.step (safeQty env fq)).2 with
  | ok id => exact ⟨rfl, rfl, rfl, rfl⟩
  | raised msg localId => exact ⟨rfl, rfl, rfl, rfl⟩

/-! ### Claim C6: the retry policy of the OCO submission loop -/

/-- Claim C6: the loop posts at most 3 submissions; an attempt beyond the
first exists only when the previous attempt failed with a message
containing "insufficient balance" (case-insensitively), with attempts left,
and its quantity is the lot-step floor of min(fresh free balance, filled
quantity) times 0.999; a failure without that marker ends the loop with the
exception re-raised. -/
theorem C6_retry_policy (env : Env) (tp sl slLim filled step q0 : ℚ) :
    (ocoLoop env tp sl slLim filled step q0).1.length ≤ 3 ∧
    (∀ j r, ((ocoLoop env tp sl slLim filled step q0).1)[j+1]? = some r →
      ∃ msg free,
        env.ocoSend j = .error msg ∧ isInsuffBal msg = true ∧ j < 2 ∧
        env.retryBal j = some free ∧
        r.qtyIn = round_step (min free filled * (999/1000)) step ∧
        step ≤ r.qtyIn) ∧
    (∀ j msg, (((ocoLoop env tp sl slLim filled step q0).1)[j]?).isSome = true →
      env.ocoSend j = .error msg → isInsuffBal msg = false →
      (ocoLoop env tp sl slLim filled step q0).1.length = j + 1 ∧
      (ocoLoop env tp sl slLim filled step q0).2 = .raised msg none) := by
  refine ⟨ocoLoopAux_length_le env tp sl slLim filled step 3 0 q0, ?_, ?_⟩
  · intro j r h
    have h2 := ocoLoopAux_succ env tp sl slLim filled step 3 0 q0 j r h
    simpa using h2
  · intro j msg h hsend hins
    exact ocoLoopAux_stop env tp sl slLim filled step 3 0 q0 j msg h
      (by simpa using hsend) hins

/-! ### Claim C7: the balance settlement wait -/

/-- Claim C7: the wait loop polls at most 15 times (30 s in 2 s steps); it
stops at the first response with free+locked at or above 95 percent of the
filled quantity; when no response reaches the threshold it stops after
exactly 15 polls keeping the last observed balance, and the orchestrator
then proceeds to submit with a quantity computed from that balance rather
than failing. -/
theorem C7_settlement_wait (bal : ℕ → Option (ℚ × ℚ)) (filled : ℚ) :
    (balanceWait bal filled).1 ≤ 15 ∧
    (∀ j f l, j < 15 → bal j = some (f, l) → filled * (95/100) ≤ f + l →
      (∀ m f2 l2, m < j → bal m = some (f2, l2) → f2 + l2 < filled * (95/100)) →
      balanceWait bal filled = (j+1, f, l)) ∧
    ((∀ m f2 l2, m < 15 → bal m = some (f2, l2) → f2 + l2 < filled * (95/100)) →
      (balanceWait bal filled).1 = 15 ∧
      (∀ f l, bal 14 = some (f, l) → balanceWait bal filled = (15, f, l))) ∧
    (∀ env : Env, ∀ tp_price sl_trigger offset fq ap : ℚ,
      env.balances = bal → fq = filled →
      env.buy = some (fq, ap) →
      round_tick tp_price env.tick > ap →
      ap > round_tick sl_trigger env.tick →
      round_tick (sl_trigger * (1 - offset)) env.tick
        < round_tick sl_trigger env.tick →
      env.step ≤ safeQty env fq →
      (place_bracket_atomic env tp_price sl_trigger offset).balancePolls =
        (balanceWait bal filled).1 ∧
      ∃ req t, (place_bracket_atomic env tp_price sl_trigger offset).attempts =
        ⟨safeQty env fq, req⟩ :: t) := by
  refine ⟨by simpa using balanceWaitAux_polls_le bal filled 15 0 0 0, ?_, ?_, ?_⟩
  · intro j f l hj hbal hge hprev
    exact balanceWaitAux_early bal filled 15 0 0 0 j f l (by omega) (by omega)
      hbal hge (fun m f2 l2 _ hm2 hb => hprev m f2 l2 hm2 hb)
  · intro hall
    constructor
    · have h := balanceWaitAux_timeout bal filled 15 0 0 0
        (fun m f2 l2 _ hm2 hb => hall m f2 l2 (by omega) hb)
      simpa using h
    · intro f l hlast
      exact balanceWaitAux_timeout_last bal filled 15 0 0 0 f l (by omega)
        (fun m f2 l2 _ hm2 hb => hall m f2 l2 (by omega) hb) (by simpa using hlast)
  · intro env tp_price sl_trigger offset fq ap hb hf hbuy hrel1 hrel2 hsl hdust
    subst hb
    subst hf
    obtain ⟨hsells, hatt, hpolls, houtc⟩ :=
      pba_main env tp_price sl_trigger offset fq ap hbuy hrel1 hrel2 hsl hdust
    refine ⟨hpolls, ?_⟩
    obtain ⟨t, ex, hcons⟩ := ocoLoopAux_cons env
      (adjT env tp_price sl_trigger offset).1
      (adjT env tp_price sl_trigger offset).2.1
      (adjT env tp_price sl_trigger offset).2.2
      fq env.step 3 0 (safeQty env fq) (by omega)
    refine ⟨attemptReq env (adjT env tp_price sl_trigger offset).1
      (adjT env tp_price sl_trigger offset).2.1
      (adjT env tp_price sl_trigger offset).2.2
      env.step 0 (safeQty env fq), t, ?_⟩
    rw [hatt]
    unfold ocoLoop
    rw [hcons]

/-! ### Concrete evaluation helpers -/

lemma floor_eval {x : ℚ} {n : ℤ} (h1 : (n : ℚ) ≤ x) (h2 : x < (n : ℚ) + 1) :
    ⌊x⌋ = n := by
  rw [Int.floor_eq_iff]
  exact ⟨h1, h2⟩

lemma round_tick_one (x : ℚ) : round_tick x 1 = (⌊x⌋ : ℚ) := by
  rw [round_tick_of_tickmul x 1 (10^12) (by norm_num)]
  simp

lemma round_step_one (x : ℚ) : round_step x 1 = (⌊x⌋ : ℚ) := by
  unfold round_step
  simp

lemma p_dec_one (x : ℚ) : p_dec x 1 = (⌊x⌋ : ℚ) := by
  unfold p_dec
  simp

lemma q_dec_one (x : ℚ) : q_dec x 1 = (⌊x⌋ : ℚ) := by
  unfold q_dec
  simp

/-! ### Claim C2: the validation gate after a fill -/

/-- Claim C2: if the market buy fills and the quantized prices violate
take-profit > fill > stop-trigger, the orchestrator market-sells the
filled quantity, submits no OCO, and raises the validation error. -/
theorem C2_validation_flatten (env : Env) (tp_price sl_trigger offset fq ap : ℚ)
    (hbuy : env.buy = some (fq, ap))
    (hviol : ¬ (round_tick tp_price env.tick > ap ∧
      ap > round_tick sl_trigger env.tick)) :
    (place_bracket_atomic env tp_price sl_trigger offset).sells = [fq] ∧
    (place_bracket_atomic env tp_price sl_trigger offset).attempts = [] ∧
    (place_bracket_atomic env tp_price sl_trigger offset).outcome =
      .err invalidRelationMsg := by
  unfold place_bracket_atomic
  simp only [hbuy]
  rw [if_pos hviol]
  exact ⟨rfl, rfl, rfl⟩

/-- The spec scenario for C2: fill at 105, take-profit 102 below it. -/
def envC2 : Env where
  tick := 1
  step := 1
  lastPx := 105
  buy := some (10, 105)
  balances := fun _ => some (10, 0)
  lastNow := 105
  mnFetch := fun _ => none
  minNotional := 0
  ocoSend := fun _ => .ok (some 5)
  retryBal := fun _ => none
  verifyOk := true

theorem C2_validation_flatten_witness :
    (place_bracket_atomic envC2 102 95 (1/1000)).sells = [10] ∧
    (place_bracket_atomic envC2 102 95 (1/1000)).attempts = [] ∧
    (place_bracket_atomic envC2 102 95 (1/1000)).outcome =
      .err invalidRelationMsg := by
  refine C2_validation_flatten envC2 102 95 (1/1000) 10 105 rfl ?_
  rintro ⟨h1, h2⟩
  rw [show envC2.tick = 1 from rfl, round_tick_one,
    floor_eval (x := 102) (n := 102) (by norm_num) (by norm_num)] at h1
  norm_num at h1

/-! ### Claim C1: the no-naked-position property fails on hard OCO errors -/

/-- A family of runs in which the buy fills 10 units at 100, the balance
settles at once, both validation gates pass (take-profit 200, stop 90), and
the live price (100) crosses neither trigger; `send` gives the per-attempt
`place_oco` outcome. -/
def envHard (send : ℕ → Except String (Option ℕ)) : Env where
  tick := 1
  step := 1
  lastPx := 100
  buy := some (10, 100)
  balances := fun _ => some (10, 0)
  lastNow := 100
  mnFetch := fun _ => none
  minNotional := 0
  ocoSend := send
  retryBal := fun _ => none
  verifyOk := true

lemma envHard_bw (send : ℕ → Except String (Option ℕ)) :
    balanceWait (envHard send).balances 10 = (1, 10, 0) := by
  have h := balanceWaitAux_early (envHard send).balances 10 15 0 0 0 0 10 0
    (by omega) (by omega) rfl (by norm_num)
    (fun m f2 l2 _ hm => absurd hm (Nat.not_lt_zero m))
  simpa [balanceWait] using h

lemma envHard_safe (send : ℕ → Except String (Option ℕ)) :
    safeQty (envHard send) 10 = 9 := by
  unfold safeQty
  rw [envHard_bw]
  show round_step (min (10:ℚ) 10 * (999/1000)) 1 = 9
  rw [round_step_one,
    show min (10:ℚ) 10 * (999/1000) = 999/100 from by norm_num,
    floor_eval (x := 999/100) (n := 9) (by norm_num) (by norm_num)]
  norm_num

lemma envHard_rel1 (send : ℕ → Except String (Option ℕ)) :
    round_tick 200 (envHard send).tick > (100:ℚ) := by
  rw [show (envHard send).tick = 1 from rfl, round_tick_one,
    floor_eval (x := 200) (n := 200) (by norm_num) (by norm_num)]
  norm_num

lemma envHard_rel2 (send : ℕ → Except String (Option ℕ)) :
    (100:ℚ) > round_tick 90 (envHard send).tick := by
  rw [show (envHard send).tick = 1 from rfl, round_tick_one,
    floor_eval (x := 90) (n := 90) (by norm_num) (by norm_num)]
  norm_num

lemma envHard_sl (send : ℕ → Except String (Option ℕ)) :
    round_tick (90 * (1 - 1/1000)) (envHard send).tick
      < round_tick 90 (envHard send).tick := by
  rw [show (envHard send).tick = 1 from rfl, round_tick_one, round_tick_one,
    show (90:ℚ) * (1 - 1/1000) = 8991/100 from by norm_num,
    floor_eval (x := 8991/100) (n := 89) (by norm_num) (by norm_num),
    floor_eval (x := 90) (n := 90) (by norm_num) (by norm_num)]
  norm_num

lemma envHard_dust (send : ℕ → Except String (Option ℕ)) :
    (envHard send).step ≤ safeQty (envHard send) 10 := by
  rw [envHard_safe]
  norm_num [envHard]

/-- Hard-failure run: the single OCO attempt dies with a network-style
error carrying no soft token. -/
def envC1 : Env := envHard (fun _ => .error "Connection reset by peer")

theorem C1_no_flatten_on_hard_failure :
    envC1.buy = some (10, 100) ∧ (0:ℚ) < 10 ∧
    (place_bracket_atomic envC1 200 90 (1/1000)).sells = [] ∧
    (place_bracket_atomic envC1 200 90 (1/1000)).outcome =
      .err ("OCO placement failed: " ++ "Connection reset by peer") := by
  obtain ⟨hsells, hatt, hpolls, houtc⟩ :=
    pba_main envC1 200 90 (1/1000) 10 100 rfl (envHard_rel1 _) (envHard_rel2 _)
      (envHard_sl _) (envHard_dust _)
  have hexit : (ocoLoop envC1 (adjT envC1 200 90 (1/1000)).1
      (adjT envC1 200 90 (1/1000)).2.1 (adjT envC1 200 90 (1/1000)).2.2
      10 envC1.step (safeQty envC1 10)).2 =
      .raised "Connection reset by peer" none := by
    have h := ocoLoopAux_step_raise envC1 (adjT envC1 200 90 (1/1000)).1
      (adjT envC1 200 90 (1/1000)).2.1 (adjT envC1 200 90 (1/1000)).2.2
      10 envC1.step 2 0 (safeQty envC1 10) "Connection reset by peer" rfl
      (by decide)
    unfold ocoLoop
    rw [show (3:ℕ) = 2+1 from rfl, h]
  rw [hexit] at houtc
  refine ⟨rfl, by norm_num, hsells, ?_⟩
  rw [houtc]
  have hsoft : isSoft "Connection reset by peer" = false := by decide
  simp [outerHandle, hsoft]

/-! ### Claim C10: soft errors return a success-shaped result -/

/-- Soft-failure run: the single OCO attempt raises "Filter failure:
NOTIONAL", which matches the soft-token list before any `orderListId`
exists. -/
def envC10 : Env := envHard (fun _ => .error "Filter failure: NOTIONAL")

/-- Claim C10: there is a failing OCO placement in which
`place_bracket_atomic` returns normally with `oco_id = None` and no
compensating sell; in general any error whose text contains a soft token
is converted by the handler into a success-shaped return. -/
theorem C10_soft_error_success_shape :
    (place_bracket_atomic envC10 200 90 (1/1000)).outcome =
      .ret ⟨10, 100, (adjT envC10 200 90 (1/1000)).1,
        (adjT envC10 200 90 (1/1000)).2.1,
        (adjT envC10 200 90 (1/1000)).2.2, none⟩ ∧
    (place_bracket_atomic envC10 200 90 (1/1000)).sells = [] ∧
    (∀ (msg : String) (fq ap tp sl slLim : ℚ) (lid : Option ℕ),
      isSoft msg = true →
      outerHandle msg fq ap tp sl slLim lid = .ret ⟨fq, ap, tp, sl, slLim, lid⟩) := by
  obtain ⟨hsells, hatt, hpolls, houtc⟩ :=
    pba_main envC10 200 90 (1/1000) 10 100 rfl (envHard_rel1 _) (envHard_rel2 _)
      (envHard_sl _) (envHard_dust _)
  have hexit : (ocoLoop envC10 (adjT envC10 200 90 (1/1000)).1
      (adjT envC10 200 90 (1/1000)).2.1 (adjT envC10 200 90 (1/1000)).2.2
      10 envC10.step (safeQty envC10 10)).2 =
      .raised "Filter failure: NOTIONAL" none := by
    have h := ocoLoopAux_step_raise envC10 (adjT envC10 200 90 (1/1000)).1
      (adjT envC10 200 90 (1/1000)).2.1 (adjT envC10 200 90 (1/1000)).2.2
      10 envC10.step 2 0 (safeQty envC10 10) "Filter failure: NOTIONAL" rfl
      (by decide)
    unfold ocoLoop
    rw [show (3:ℕ) = 2+1 from rfl, h]
  rw [hexit] at houtc
  have hsoft : isSoft "Filter failure: NOTIONAL" = true := by decide
  refine ⟨?_, hsells, ?_⟩
  · rw [houtc]
    simp [outerHandle, hsoft]
  · intro msg fq ap tp sl slLim lid h
    unfold outerHandle
    rw [if_pos h]

theorem C10_soft_error_success_shape_witness :
    outerHandle "oco" 1 2 3 4 5 none = .ret ⟨1, 2, 3, 4, 5, none⟩ :=
  C10_soft_error_success_shape.2.2 "oco" 1 2 3 4 5 none (by decide)

/-! ### Witnesses for C6 and C7 -/

def insuffMsg : String := "Account has insufficient balance for requested action."

/-- Retry run: attempt 0 is rejected for insufficient balance, the refetched
free balance is 8, and attempt 1 succeeds with order list id 5. -/
def envC6 : Env where
  tick := 1
  step := 1
  lastPx := 100
  buy := some (10, 100)
  balances := fun _ => some (10, 0)
  lastNow := 100
  mnFetch := fun _ => none
  minNotional := 0
  ocoSend := fun a => match a with
    | 0 => .error insuffMsg
    | _+1 => .ok (some 5)
  retryBal := fun _ => some 8
  verifyOk := true

lemma envC6_sq : round_step (min (8:ℚ) 10 * (999/1000)) 1 = 7 := by
  rw [round_step_one,
    show min (8:ℚ) 10 * (999/1000) = 999/125 from by norm_num,
    floor_eval (x := 999/125) (n := 7) (by norm_num) (by norm_num)]
  norm_num

lemma envC6_eval : ocoLoop envC6 200 90 89 10 1 9 =
    ([⟨9, attemptReq envC6 200 90 89 1 0 9⟩,
      ⟨7, attemptReq envC6 200 90 89 1 1 7⟩], .ok 5) := by
  have h1 := ocoLoopAux_step_retry envC6 200 90 89 10 1 2 0 9 8 insuffMsg rfl
    (by decide) (by omega) rfl (by rw [envC6_sq]; norm_num)
  rw [envC6_sq] at h1
  have h2 := ocoLoopAux_step_ok envC6 200 90 89 10 1 1 (0+1) 7 5 rfl (by omega)
  unfold ocoLoop
  rw [show (3:ℕ) = 2+1 from rfl, h1, show (2:ℕ) = 1+1 from rfl, h2]

lemma envC6_get : ((ocoLoop envC6 200 90 89 10 1 9).1)[0+1]? =
    some ⟨7, attemptReq envC6 200 90 89 1 1 7⟩ := by
  simp [envC6_eval]

theorem C6_retry_policy_witness :
    ∃ msg free,
      envC6.ocoSend 0 = .error msg ∧ isInsuffBal msg = true ∧ 0 < 2 ∧
      envC6.retryBal 0 = some free ∧
      (AttemptRec.mk 7 (attemptReq envC6 200 90 89 1 1 7)).qtyIn =
        round_step (min free 10 * (999/1000)) 1 ∧
      (1:ℚ) ≤ (AttemptRec.mk 7 (attemptReq envC6 200 90 89 1 1 7)).qtyIn :=
  (C6_retry_policy envC6 200 90 89 10 1 9).2.1 0
    ⟨7, attemptReq envC6 200 90 89 1 1 7⟩ envC6_get

def balC7 : ℕ → Option (ℚ × ℚ) := fun _ => some (10, 0)

theorem C7_settlement_wait_witness :
    (balanceWait balC7 10).1 ≤ 15 ∧ balanceWait balC7 10 = (1, 10, 0) :=
  ⟨(C7_settlement_wait balC7 10).1,
   (C7_settlement_wait balC7 10).2.1 0 10 0 (by norm_num) rfl (by norm_num)
     (fun m f2 l2 hm => absurd hm (Nat.not_lt_zero m))⟩

/-! ### Claim C8: the live-price trigger shift -/

lemma p_dec_round_tick (x tick : ℚ) (k : ℤ) (hk : tick * 10^12 = (k : ℚ))
    (h0 : tick ≠ 0) :
    p_dec (round_tick x tick) tick = round_tick x tick := by
  rw [round_tick_of_tickmul x tick k hk]
  exact p_dec_int_mul _ _ h0

/-- Claim C8 (amended): when the live price is at or below the quantized
stop-trigger, the trigger becomes the tick-floor of (live - tick) and the
stop-limit is recomputed from it; when the live price is at or above the
quantized take-profit, the take-profit becomes the tick-floor of
(live + tick) - which is one tick above the live price exactly when the
live price is tick-aligned; the bracket is then submitted with the shifted
trigger rather than abandoned; in particular with live 94, trigger 95 and
tick 0.1 the submitted trigger is 93.9. -/
theorem C8_trigger_shift :
    (∀ tick offset lastNow tp sl slLim : ℚ, lastNow ≤ sl →
      (adjustTriggers tick offset lastNow tp sl slLim).2.1 =
        round_tick (lastNow - tick) tick ∧
      (adjustTriggers tick offset lastNow tp sl slLim).2.2 =
        round_tick (round_tick (lastNow - tick) tick * (1 - offset)) tick) ∧
    (∀ tick offset lastNow tp sl slLim : ℚ, lastNow ≥ tp →
      (adjustTriggers tick offset lastNow tp sl slLim).1 =
        round_tick (lastNow + tick) tick) ∧
    (∀ (env : Env) (tp_price sl_trigger offset fq ap : ℚ) (k : ℤ),
      env.buy = some (fq, ap) →
      round_tick tp_price env.tick > ap →
      ap > round_tick sl_trigger env.tick →
      round_tick (sl_trigger * (1 - offset)) env.tick
        < round_tick sl_trigger env.tick →
      env.step ≤ safeQty env fq →
      env.tick * 10^12 = (k : ℚ) → 0 < env.tick →
      env.lastNow ≤ round_tick sl_trigger env.tick →
      ∃ r t, (place_bracket_atomic env tp_price sl_trigger offset).attempts =
          r :: t ∧
        r.req.slTrigger = round_tick (env.lastNow - env.tick) env.tick) ∧
    round_tick (94 - 1/10) (1/10) = 939/10 := by
  refine ⟨?_, ?_, ?_, ?_⟩
  · intro tick offset lastNow tp sl slLim h
    constructor
    · simp [adjustTriggers, eq_true h]
    · simp [adjustTriggers, eq_true h]
  · intro tick offset lastNow tp sl slLim h
    unfold adjustTriggers
    simp only [eq_true h, if_true]
  · intro env tp_price sl_trigger offset fq ap k hbuy hrel1 hrel2 hsl hdust hk
      htick hlast
    obtain ⟨hsells, hatt, hpolls, houtc⟩ :=
      pba_main env tp_price sl_trigger offset fq ap hbuy hrel1 hrel2 hsl hdust
    have hT2 : (adjT env tp_price sl_trigger offset).2.1 =
        round_tick (env.lastNow - env.tick) env.tick := by
      unfold adjT adjustTriggers
      simp only [eq_true hlast, if_true]
    obtain ⟨t, ex, hcons⟩ := ocoLoopAux_cons env
      (adjT env tp_price sl_trigger offset).1
      (adjT env tp_price sl_trigger offset).2.1
      (adjT env tp_price sl_trigger offset).2.2
      fq env.step 3 0 (safeQty env fq) (by omega)
    refine ⟨⟨safeQty env fq, attemptReq env (adjT env tp_price sl_trigger offset).1
      (adjT env tp_price sl_trigger offset).2.1
      (adjT env tp_price sl_trigger offset).2.2
      env.step 0 (safeQty env fq)⟩, t, ?_, ?_⟩
    · rw [hatt]
      unfold ocoLoop
      rw [hcons]
    · show (attemptReq env (adjT env tp_price sl_trigger offset).1
        (adjT env tp_price sl_trigger offset).2.1
        (adjT env tp_price sl_trigger offset).2.2
        env.step 0 (safeQty env fq)).slTrigger = _
      unfold attemptReq
      rw [place_oco_request_slTrigger, hT2,
        p_dec_round_tick _ _ k hk htick.ne']
  · have hfl : ⌊(94 - 1/10 : ℚ) / (1/10)⌋ = 939 :=
      floor_eval (by norm_num) (by norm_num)
    rw [round_tick_eval (94 - 1/10) (1/10) 939 93900000000000 hfl (by norm_num)]
    norm_num

/-- Claim C8 fails as literally stated on the take-profit side: with live
price 94.05 (not tick-aligned) and take-profit 94 at tick 0.1, the code
submits 94.1 = tick-floor(94.05 + 0.1), not "one tick above the live
price" = 94.15. -/
theorem C8_counterexample :
    (94:ℚ) ≤ 9405/100 ∧
    (adjustTriggers (1/10) (1/1000) (9405/100) 94 90 89).1 = 941/10 ∧
    (941/10 : ℚ) ≠ 9405/100 + 1/10 := by
  refine ⟨by norm_num, ?_, by norm_num⟩
  have hb : (adjustTriggers (1/10) (1/1000) (9405/100) 94 90 89).1 =
      round_tick (9405/100 + 1/10) (1/10) := by
    unfold adjustTriggers
    simp only [eq_true (show (9405/100:ℚ) ≥ 94 from by norm_num), if_true]
  rw [hb]
  have hfl : ⌊(9405/100 + 1/10 : ℚ) / (1/10)⌋ = 941 :=
    floor_eval (by norm_num) (by norm_num)
  rw [round_tick_eval _ _ 941 94100000000000 hfl (by norm_num)]
  norm_num

theorem C8_trigger_shift_witness :
    ((adjustTriggers 1 (1/1000) 85 200 90 89).2.1 = round_tick (85 - 1) 1 ∧
     (adjustTriggers 1 (1/1000) 85 200 90 89).2.2 =
       round_tick (round_tick (85 - 1) 1 * (1 - 1/1000)) 1) ∧
    (adjustTriggers 1 (1/1000) 300 200 90 89).1 = round_tick (300 + 1) 1 :=
  ⟨C8_trigger_shift.1 1 (1/1000) 85 200 90 89 (by norm_num),
   C8_trigger_shift.2.1 1 (1/1000) 300 200 90 89 (by norm_num)⟩

/-! ### Claim C3: the safe-quantity bound on the exit order -/

lemma poreq_nofire (tick step mn q tp sl slLim : ℚ) (hstep : 0 < step)
    (hno : ¬ (p_dec tp tick * q_dec q step < mn ∨
      p_dec sl tick * q_dec q step < mn)) :
    (place_oco_request tick step mn q tp sl slLim).qty = q_dec q step ∧
    (place_oco_request tick step mn q tp sl slLim).qty ≤ q := by
  rw [place_oco_request_qty, if_neg hno]
  refine ⟨rfl, ?_⟩
  unfold q_dec
  exact gridFloor_le q step hstep

/-- Claim C3 (amended): the quantity submitted on the exit order equals
min(filled, free) times 0.999 floored to the lot step whenever neither
minimum-notional adjustment fires; the minimum-notional adjustments
(lines 456-459 of the orchestrator and 76-79 of `place_oco`) may raise it
above that bound. -/
theorem C3_qty_bound :
    (∀ tick step mn q tp sl slLim : ℚ, 0 < step →
      ¬ (p_dec tp tick * q_dec q step < mn ∨
        p_dec sl tick * q_dec q step < mn) →
      (place_oco_request tick step mn q tp sl slLim).qty = q_dec q step ∧
      (place_oco_request tick step mn q tp sl slLim).qty ≤ q) ∧
    (∀ (env : Env) (tp_price sl_trigger offset fq ap : ℚ),
      env.buy = some (fq, ap) →
      round_tick tp_price env.tick > ap →
      ap > round_tick sl_trigger env.tick →
      round_tick (sl_trigger * (1 - offset)) env.tick
        < round_tick sl_trigger env.tick →
      env.step ≤ safeQty env fq →
      0 < env.step →
      attemptQty env (adjT env tp_price sl_trigger offset).1
        (adjT env tp_price sl_trigger offset).2.1 env.step 0 (safeQty env fq) =
        safeQty env fq →
      ¬ (p_dec (adjT env tp_price sl_trigger offset).1 env.tick *
            q_dec (safeQty env fq) env.step < env.minNotional ∨
          p_dec (adjT env tp_price sl_trigger offset).2.1 env.tick *
            q_dec (safeQty env fq) env.step < env.minNotional) →
      ∃ r t, (place_bracket_atomic env tp_price sl_trigger offset).attempts =
          r :: t ∧
        r.qtyIn = safeQty env fq ∧ r.req.qty ≤ safeQty env fq) ∧
    (∀ (env2 : PofEnv) (filled fill tp sl offset : ℚ),
      round_tick tp env2.tick > fill →
      fill > round_tick sl env2.tick →
      0 < env2.step →
      ¬ (round_step (min (balanceWait (fun i => some (env2.balances i))
            filled).2.1 filled * (999/1000)) env2.step < env2.step) →
      ¬ (p_dec (round_tick tp env2.tick) env2.tick *
            q_dec (round_step (min (balanceWait (fun i => some (env2.balances i))
              filled).2.1 filled * (999/1000)) env2.step) env2.step
            < env2.minNotional ∨
          p_dec (round_tick sl env2.tick) env2.tick *
            q_dec (round_step (min (balanceWait (fun i => some (env2.balances i))
              filled).2.1 filled * (999/1000)) env2.step) env2.step
            < env2.minNotional) →
      ∃ req, place_oco_after_fill env2 filled fill tp sl offset = .ok req ∧
        req.qty ≤ round_step (min (balanceWait (fun i => some (env2.balances i))
          filled).2.1 filled * (999/1000)) env2.step) := by
  refine ⟨fun tick step mn q tp sl slLim hstep hno =>
    poreq_nofire tick step mn q tp sl slLim hstep hno, ?_, ?_⟩
  · intro env tp_price sl_trigger offset fq ap hbuy hrel1 hrel2 hsl hdust hstep
      hnf hpo
    obtain ⟨hsells, hatt, hpolls, houtc⟩ :=
      pba_main env tp_price sl_trigger offset fq ap hbuy hrel1 hrel2 hsl hdust
    obtain ⟨t, ex, hcons⟩ := ocoLoopAux_cons env
      (adjT env tp_price sl_trigger offset).1
      (adjT env tp_price sl_trigger offset).2.1
      (adjT env tp_price sl_trigger offset).2.2
      fq env.step 3 0 (safeQty env fq) (by omega)
    refine ⟨⟨safeQty env fq, attemptReq env (adjT env tp_price sl_trigger offset).1
      (adjT env tp_price sl_trigger offset).2.1
      (adjT env tp_price sl_trigger offset).2.2
      env.step 0 (safeQty env fq)⟩, t, ?_, rfl, ?_⟩
    · rw [hatt]
      unfold ocoLoop
      rw [hcons]
    · show (attemptReq env (adjT env tp_price sl_trigger offset).1
        (adjT env tp_price sl_trigger offset).2.1
        (adjT env tp_price sl_trigger offset).2.2
        env.step 0 (safeQty env fq)).qty ≤ safeQty env fq
      unfold attemptReq
      rw [hnf]
      exact (poreq_nofire env.tick env.step env.minNotional (safeQty env fq)
        (adjT env tp_price sl_trigger offset).1
        (adjT env tp_price sl_trigger offset).2.1
        (adjT env tp_price sl_trigger offset).2.2 hstep hpo).2
  · intro env2 filled fill tp sl offset hrel1 hrel2 hstep hnd hpo
    unfold place_oco_after_fill
    rw [if_neg (not_not_intro ⟨hrel1, hrel2⟩), if_neg hnd]
    exact ⟨_, rfl, (poreq_nofire env2.tick env2.step env2.minNotional _
      (round_tick tp env2.tick) (round_tick sl env2.tick) _ hstep hpo).2⟩

theorem C3_qty_bound_witness :
    (place_oco_request 1 1 5 9 200 90 89).qty = q_dec 9 1 ∧
    (place_oco_request 1 1 5 9 200 90 89).qty ≤ 9 := by
  refine C3_qty_bound.1 1 1 5 9 200 90 89 (by norm_num) ?_
  rw [p_dec_one, p_dec_one, q_dec_one,
    floor_eval (x := 200) (n := 200) (by norm_num) (by norm_num),
    floor_eval (x := 90) (n := 90) (by norm_num) (by norm_num),
    floor_eval (x := 9) (n := 9) (by norm_num) (by norm_num)]
  norm_num

/-- Min-notional counterexample run: filled 10 at 100, free balance 10, but
the exchange minimum notional is 2000, so both the orchestrator and
`place_oco` raise the quantity far above the safe bound. -/
def envC3 : Env := envHard (fun _ => .ok (some 5))

/-- `envC3` with the minimum-notional filter set to 2000. -/
def envC3n : Env :=
  { envC3 with mnFetch := fun _ => some 2000, minNotional := 2000 }

lemma envC3n_bw : balanceWait envC3n.balances 10 = (1, 10, 0) := by
  have h := balanceWaitAux_early envC3n.balances 10 15 0 0 0 0 10 0
    (by omega) (by omega) rfl (by norm_num)
    (fun m f2 l2 _ hm => absurd hm (Nat.not_lt_zero m))
  simpa [balanceWait] using h

lemma envC3n_safe : safeQty envC3n 10 = 9 := by
  unfold safeQty
  rw [envC3n_bw]
  show round_step (min (10:ℚ) 10 * (999/1000)) 1 = 9
  rw [round_step_one,
    show min (10:ℚ) 10 * (999/1000) = 999/100 from by norm_num,
    floor_eval (x := 999/100) (n := 9) (by norm_num) (by norm_num)]
  norm_num

lemma envC3n_adjT : adjT envC3n 200 90 (1/1000) = (200, 90, 89) := by
  have h200 : round_tick 200 envC3n.tick = 200 := by
    rw [show envC3n.tick = 1 from rfl, round_tick_one,
      floor_eval (x := 200) (n := 200) (by norm_num) (by norm_num)]
    norm_num
  have h90 : round_tick 90 envC3n.tick = 90 := by
    rw [show envC3n.tick = 1 from rfl, round_tick_one,
      floor_eval (x := 90) (n := 90) (by norm_num) (by norm_num)]
    norm_num
  have h89 : round_tick (90 * (1 - 1/1000)) envC3n.tick = 89 := by
    rw [show envC3n.tick = 1 from rfl, round_tick_one,
      show (90:ℚ) * (1 - 1/1000) = 8991/100 from by norm_num,
      floor_eval (x := 8991/100) (n := 89) (by norm_num) (by norm_num)]
    norm_num
  unfold adjT
  rw [h200, h90, h89]
  have hA : (envC3n.lastNow ≥ (200:ℚ)) = False :=
    eq_false (by norm_num [envC3n, envC3, envHard])
  have hB : (envC3n.lastNow ≤ (90:ℚ)) = False :=
    eq_false (by norm_num [envC3n, envC3, envHard])
  simp [adjustTriggers, hA, hB]

lemma envC3n_q1 : attemptQty envC3n 200 90 1 0 9 = 22 := by
  unfold attemptQty
  simp only [show envC3n.mnFetch 0 = some 2000 from rfl]
  rw [if_pos (show (200:ℚ)*9 < 2000 ∨ (90:ℚ)*9 < 2000 from by norm_num)]
  rw [round_step_one,
    show (2000:ℚ) / min 200 90 * (102/100) = 68/3 from by
      rw [show min (200:ℚ) 90 = 90 from by norm_num [min_def]]
      norm_num,
    floor_eval (x := 68/3) (n := 22) (by norm_num) (by norm_num)]
  norm_num

lemma envC3n_req : (place_oco_request 1 1 2000 22 200 90 89).qty = 23 := by
  have e200 : p_dec (200:ℚ) 1 = 200 := by
    rw [p_dec_one, floor_eval (x := 200) (n := 200) (by norm_num) (by norm_num)]
    norm_num
  have e90 : p_dec (90:ℚ) 1 = 90 := by
    rw [p_dec_one, floor_eval (x := 90) (n := 90) (by norm_num) (by norm_num)]
    norm_num
  have e22 : q_dec (22:ℚ) 1 = 22 := by
    rw [q_dec_one, floor_eval (x := 22) (n := 22) (by norm_num) (by norm_num)]
    norm_num
  rw [place_oco_request_qty, e200, e90, e22]
  rw [if_pos (show (200:ℚ)*22 < 2000 ∨ (90:ℚ)*22 < 2000 from by norm_num)]
  rw [q_dec_one,
    show (2000:ℚ) / min 200 90 * (105/100) = 70/3 from by
      rw [show min (200:ℚ) 90 = 90 from by norm_num [min_def]]
      norm_num,
    floor_eval (x := 70/3) (n := 23) (by norm_num) (by norm_num)]
  norm_num

/-- Claim C3 fails as stated: in the `envC3n` run the safe bound is 9, yet
the submitted exit-order quantity is 23, raised by the two minimum-notional
adjustments. -/
theorem C3_counterexample :
    ∃ r t, (place_bracket_atomic envC3n 200 90 (1/1000)).attempts = r :: t ∧
      round_step (min (balanceWait envC3n.balances 10).2.1 10 * (999/1000))
        envC3n.step = 9 ∧
      r.req.qty = 23 ∧ (9:ℚ) < 23 := by
  have hrel1 : round_tick 200 envC3n.tick > (100:ℚ) := by
    rw [show envC3n.tick = 1 from rfl, round_tick_one,
      floor_eval (x := 200) (n := 200) (by norm_num) (by norm_num)]
    norm_num
  have hrel2 : (100:ℚ) > round_tick 90 envC3n.tick := by
    rw [show envC3n.tick = 1 from rfl, round_tick_one,
      floor_eval (x := 90) (n := 90) (by norm_num) (by norm_num)]
    norm_num
  have hsl : round_tick (90 * (1 - 1/1000)) envC3n.tick
      < round_tick 90 envC3n.tick := by
    rw [show envC3n.tick = 1 from rfl, round_tick_one, round_tick_one,
      show (90:ℚ) * (1 - 1/1000) = 8991/100 from by norm_num,
      floor_eval (x := 8991/100) (n := 89) (by norm_num) (by norm_num),
      floor_eval (x := 90) (n := 90) (by norm_num) (by norm_num)]
    norm_num
  have hdust : envC3n.step ≤ safeQty envC3n 10 := by
    rw [envC3n_safe]
    norm_num [envC3n, envC3, envHard]
  obtain ⟨hsells, hatt, hpolls, houtc⟩ :=
    pba_main envC3n 200 90 (1/1000) 10 100 rfl hrel1 hrel2 hsl hdust
  obtain ⟨t, ex, hcons⟩ := ocoLoopAux_cons envC3n
    (adjT envC3n 200 90 (1/1000)).1 (adjT envC3n 200 90 (1/1000)).2.1
    (adjT envC3n 200 90 (1/1000)).2.2
    10 envC3n.step 3 0 (safeQty envC3n 10) (by omega)
  refine ⟨⟨safeQty envC3n 10, attemptReq envC3n (adjT envC3n 200 90 (1/1000)).1
    (adjT envC3n 200 90 (1/1000)).2.1 (adjT envC3n 200 90 (1/1000)).2.2
    envC3n.step 0 (safeQty envC3n 10)⟩, t, ?_, ?_, ?_, by norm_num⟩
  · rw [hatt]
    unfold ocoLoop
    rw [hcons]
  · have h := envC3n_safe
    unfold safeQty at h
    exact h
  · show (attemptReq envC3n (adjT envC3n 200 90 (1/1000)).1
      (adjT envC3n 200 90 (1/1000)).2.1 (adjT envC3n 200 90 (1/1000)).2.2
      envC3n.step 0 (safeQty envC3n 10)).qty = 23
    have hT1 : (adjT envC3n 200 90 (1/1000)).1 = 200 := by rw [envC3n_adjT]
    have hT2 : (adjT envC3n 200 90 (1/1000)).2.1 = 90 := by rw [envC3n_adjT]
    have hT3 : (adjT envC3n 200 90 (1/1000)).2.2 = 89 := by rw [envC3n_adjT]
    rw [hT1, hT2, hT3, envC3n_safe, show envC3n.step = 1 from rfl]
    unfold attemptReq
    rw [envC3n_q1, show envC3n.tick = 1 from rfl, show envC3n.step = 1 from rfl,
      show envC3n.minNotional = 2000 from rfl]
    exact envC3n_req

end LiveTradeExecutor
